import Mathlib

/-!
Verification of the victor trading system against its specification.

The Python source is shallowly embedded: floats are modelled as `ℚ`
(exact arithmetic; the claims under audit are about branch structure and
exact formulas, not rounding), Python `int` as `Int`, dates as integer
day numbers, and Python dicts as insertion-ordered association lists.
Each definition is a direct translation of the function of the same name
in the repository; deviations forced by the embedding are noted inline.
-/

namespace Victor

/-! ### SimulatedPortfolio (src/backtest/portfolio.py) -/

/-- `TradeRecord` dataclass of portfolio.py: one simulated trade.
Dates are integer day numbers (day 0 is a Monday, so `weekday = d % 7`
matches Python's `date.weekday`). -/
structure PTradeRecord where
  tdate : Nat
  stock_code : String
  stock_name : String
  action : String
  quantity : Int
  price : ℚ
  total_amount : ℚ
deriving DecidableEq

/-- One value of the `_holdings` dict: `{name, qty, avg_price}`. -/
structure Holding where
  name : String
  qty : Int
  avg_price : ℚ
deriving DecidableEq

/-- One entry of `daily_values` as built by `record_daily_value`. -/
structure Snapshot where
  sdate : Nat
  total_value : ℚ
  cash : ℚ
  stock_value : ℚ
  return_pct : ℚ
deriving DecidableEq

/-- The `SimulatedPortfolio` ledger state: cash, the `_holdings` dict
(modelled as an insertion-ordered association list, as Python dicts
preserve insertion order), trade history and daily valuations. -/
structure SimulatedPortfolio where
  initial_cash : ℚ
  cash : ℚ
  holdings : List (String × Holding)
  trade_history : List PTradeRecord
  daily_values : List Snapshot
deriving DecidableEq

/-- `SimulatedPortfolio.__init__`: fresh ledger with the given cash. -/
def SimulatedPortfolio.init (initial_cash : ℚ) : SimulatedPortfolio :=
  { initial_cash := initial_cash
    cash := initial_cash
    holdings := []
    trade_history := []
    daily_values := [] }

/-- Dict read: `self._holdings[code]` / `code in self._holdings`
(first entry with the key; keys are unique in every reachable state). -/
def hfind (code : String) : List (String × Holding) → Option Holding
  | [] => none
  | (c, h) :: rest => if c = code then some h else hfind code rest

/-- Dict in-place update of an existing key `self._holdings[code] = h`. -/
def hset (code : String) (h : Holding) : List (String × Holding) → List (String × Holding)
  | [] => []
  | (c, h0) :: rest => if c = code then (c, h) :: rest else (c, h0) :: hset code h rest

/-- Dict deletion `del self._holdings[code]` (removes the entry). -/
def herase (code : String) : List (String × Holding) → List (String × Holding)
  | [] => []
  | (c, h0) :: rest => if c = code then rest else (c, h0) :: herase code rest

/-- `SimulatedPortfolio.buy`: returns the Python `bool` result together
with the portfolio state after the call (state passing replaces the
in-place mutation of the source). -/
def SimulatedPortfolio.buy (p : SimulatedPortfolio) (stock_code stock_name : String)
    (quantity : Int) (price : ℚ) (trade_date : Nat) : Bool × SimulatedPortfolio :=
  let total_cost : ℚ := quantity * price
  if total_cost > p.cash ∨ quantity ≤ 0 then (false, p)
  else
    let holdings' :=
      match hfind stock_code p.holdings with
      | some h =>
          hset stock_code
            { name := h.name
              qty := h.qty + quantity
              avg_price := (h.qty * h.avg_price + total_cost) / ((h.qty + quantity : Int) : ℚ) }
            p.holdings
      | none => p.holdings ++ [(stock_code, { name := stock_name, qty := quantity, avg_price := price })]
    (true,
      { p with
        cash := p.cash - total_cost
        holdings := holdings'
        trade_history := p.trade_history ++
          [{ tdate := trade_date, stock_code := stock_code, stock_name := stock_name
             action := "buy", quantity := quantity, price := price, total_amount := total_cost }] })

/-- `SimulatedPortfolio.sell`: result flag and state after the call. -/
def SimulatedPortfolio.sell (p : SimulatedPortfolio) (stock_code : String)
    (quantity : Int) (price : ℚ) (trade_date : Nat) : Bool × SimulatedPortfolio :=
  match hfind stock_code p.holdings with
  | none => (false, p)
  | some h =>
    if quantity > h.qty then (false, p)
    else
      let total_proceeds : ℚ := quantity * price
      let holdings' :=
        if h.qty - quantity = 0 then herase stock_code p.holdings
        else hset stock_code { h with qty := h.qty - quantity } p.holdings
      (true,
        { p with
          cash := p.cash + total_proceeds
          holdings := holdings'
          trade_history := p.trade_history ++
            [{ tdate := trade_date, stock_code := stock_code, stock_name := h.name
               action := "sell", quantity := quantity, price := price, total_amount := total_proceeds }] })

/-- One call of the portfolio mutation API, for stating the ledger
invariant over operation sequences. -/
inductive POp
  | buy (code name : String) (qty : Int) (price : ℚ) (d : Nat)
  | sell (code : String) (qty : Int) (price : ℚ) (d : Nat)

/-- Apply one operation, keeping only the resulting state. -/
def applyOp (p : SimulatedPortfolio) : POp → SimulatedPortfolio
  | .buy c n q pr d => (p.buy c n q pr d).2
  | .sell c q pr d => (p.sell c q pr d).2

/-- Apply a sequence of buy/sell calls in order. -/
def applyOps (p : SimulatedPortfolio) (ops : List POp) : SimulatedPortfolio :=
  ops.foldl applyOp p

/-- A valid call: non-negative price, and non-negative quantity for
sells (buys already reject `qty ≤ 0` themselves); the spec's data model
only produces such calls (positive quantities, market prices). -/
def POp.valid : POp → Prop
  | .buy _ _ _ pr _ => 0 ≤ pr
  | .sell _ q pr _ => 0 ≤ pr ∧ 0 ≤ q

/-- Keys of the holdings dict are unique (true of Python dicts; every
reachable portfolio state satisfies it). -/
def goodKeys (p : SimulatedPortfolio) : Prop :=
  (p.holdings.map Prod.fst).Nodup

lemma hfind_eq_none_of_not_mem {code : String} :
    ∀ {hs : List (String × Holding)}, code ∉ hs.map Prod.fst → hfind code hs = none := by
  intro hs
  induction hs with
  | nil => intro _; rfl
  | cons e rest ih =>
    intro hmem
    obtain ⟨c, h⟩ := e
    simp only [List.map_cons, List.mem_cons] at hmem
    push_neg at hmem
    have hc : c ≠ code := fun hh => hmem.1 hh.symm
    simp only [hfind, if_neg hc]
    exact ih hmem.2

lemma not_mem_of_hfind_eq_none {code : String} :
    ∀ {hs : List (String × Holding)}, hfind code hs = none → code ∉ hs.map Prod.fst := by
  intro hs
  induction hs with
  | nil => intro _; simp
  | cons e rest ih =>
    intro hnone
    obtain ⟨c, h⟩ := e
    simp only [hfind] at hnone
    by_cases hc : c = code
    · simp [hc] at hnone
    · simp only [if_neg hc] at hnone
      simp only [List.map_cons, List.mem_cons]
      push_neg
      exact ⟨fun hh => hc hh.symm, ih hnone⟩

lemma hset_map_fst (code : String) (h : Holding) :
    ∀ (hs : List (String × Holding)), (hset code h hs).map Prod.fst = hs.map Prod.fst := by
  intro hs
  induction hs with
  | nil => rfl
  | cons e rest ih =>
    obtain ⟨c, h0⟩ := e
    by_cases hc : c = code
    · simp [hset, hc]
    · simp [hset, hc, ih]

lemma herase_sublist (code : String) :
    ∀ (hs : List (String × Holding)), (herase code hs).Sublist hs := by
  intro hs
  induction hs with
  | nil => exact List.Sublist.refl _
  | cons e rest ih =>
    obtain ⟨c, h0⟩ := e
    by_cases hc : c = code
    · simpa [herase, hc] using List.sublist_cons_self (c, h0) rest
    · simpa [herase, hc] using List.Sublist.cons₂ (c, h0) ih

lemma hfind_herase_eq_none {code : String} :
    ∀ {hs : List (String × Holding)}, (hs.map Prod.fst).Nodup →
      hfind code (herase code hs) = none := by
  intro hs
  induction hs with
  | nil => intro _; rfl
  | cons e rest ih =>
    intro hnd
    obtain ⟨c, h0⟩ := e
    simp only [List.map_cons, List.nodup_cons] at hnd
    by_cases hc : c = code
    · subst hc
      simp only [herase, if_pos rfl]
      exact hfind_eq_none_of_not_mem hnd.1
    · simp only [herase, if_neg hc, hfind, if_neg hc]
      exact ih hnd.2

lemma hfind_append_singleton {code : String} (h : Holding) :
    ∀ {hs : List (String × Holding)}, hfind code hs = none →
      hfind code (hs ++ [(code, h)]) = some h := by
  intro hs
  induction hs with
  | nil => intro _; simp [hfind]
  | cons e rest ih =>
    intro hnone
    obtain ⟨c, h0⟩ := e
    simp only [hfind] at hnone ⊢
    by_cases hc : c = code
    · simp [hc] at hnone
    · simp only [if_neg hc] at hnone ⊢
      exact ih hnone

lemma goodKeys_buy (p : SimulatedPortfolio) (code name : String) (qty : Int) (pr : ℚ)
    (d : Nat) (hk : goodKeys p) : goodKeys (p.buy code name qty pr d).2 := by
  unfold SimulatedPortfolio.buy
  by_cases hcond : (qty : ℚ) * pr > p.cash ∨ qty ≤ 0
  · rw [if_pos hcond]
    exact hk
  · rcases hh : hfind code p.holdings with _ | h
    · simp only [hcond, if_false, hh, goodKeys, List.map_append, List.map_cons, List.map_nil]
      refine List.Nodup.append hk ?_ ?_
      · exact List.nodup_singleton _
      · intro a ha hb
        simp only [List.mem_singleton] at hb
        subst hb
        exact not_mem_of_hfind_eq_none hh ha
    · simpa [hcond, hh, goodKeys, hset_map_fst] using hk

lemma goodKeys_sell (p : SimulatedPortfolio) (code : String) (qty : Int) (pr : ℚ)
    (d : Nat) (hk : goodKeys p) : goodKeys (p.sell code qty pr d).2 := by
  unfold SimulatedPortfolio.sell
  rcases hh : hfind code p.holdings with _ | h
  · exact hk
  · by_cases hq : qty > h.qty
    · simpa [hq] using hk
    · by_cases hz : h.qty - qty = 0
      · simp only [hq, if_false, hz, if_true]
        exact List.Nodup.sublist (List.Sublist.map _ (herase_sublist code p.holdings)) hk
      · simp only [hq, if_false, hz]
        simpa [goodKeys, hset_map_fst] using hk

lemma goodKeys_applyOps (c0 : ℚ) (ops : List POp) :
    goodKeys (applyOps (.init c0) ops) := by
  suffices h : ∀ (ops : List POp) (p : SimulatedPortfolio), goodKeys p → goodKeys (applyOps p ops) by
    exact h ops _ (by simp [goodKeys, SimulatedPortfolio.init])
  intro ops
  induction ops with
  | nil => intro p hp; exact hp
  | cons op rest ih =>
    intro p hp
    simp only [applyOps, List.foldl_cons]
    refine ih _ ?_
    cases op with
    | buy c n q pr d => exact goodKeys_buy p c n q pr d hp
    | sell c q pr d => exact goodKeys_sell p c q pr d hp

lemma cash_nonneg_applyOp (p : SimulatedPortfolio) (op : POp) (hv : op.valid)
    (hc : 0 ≤ p.cash) : 0 ≤ (applyOp p op).cash := by
  cases op with
  | buy c n q pr d =>
    simp only [applyOp]
    unfold SimulatedPortfolio.buy
    by_cases hcond : (q : ℚ) * pr > p.cash ∨ q ≤ 0
    · simpa [hcond] using hc
    · push_neg at hcond
      have hc2 : ¬((q : ℚ) * pr > p.cash ∨ q ≤ 0) := by
        push_neg
        exact hcond
      rw [if_neg hc2]
      show 0 ≤ p.cash - (q : ℚ) * pr
      linarith [hcond.1]
  | sell c q pr d =>
    simp only [applyOp]
    unfold SimulatedPortfolio.sell
    rcases hh : hfind c p.holdings with _ | h
    · exact hc
    · by_cases hq : q > h.qty
      · simpa [hq] using hc
      · have hqr : (0 : ℚ) ≤ (q : ℚ) := by exact_mod_cast hv.2
        have : (0 : ℚ) ≤ (q : ℚ) * pr := mul_nonneg hqr hv.1
        by_cases hz : h.qty - q = 0 <;> simp only [hq, hz, if_false, if_true] <;> linarith

lemma cash_nonneg_applyOps :
    ∀ (ops : List POp) (p : SimulatedPortfolio), 0 ≤ p.cash →
      (∀ op ∈ ops, op.valid) → 0 ≤ (applyOps p ops).cash := by
  intro ops
  induction ops with
  | nil => intro p hp _; exact hp
  | cons op rest ih =>
    intro p hp hv
    simp only [applyOps, List.foldl_cons]
    exact ih _ (cash_nonneg_applyOp p op (hv op (List.mem_cons_self op rest)) hp)
      (fun o ho => hv o (List.mem_cons_of_mem op ho))

/-- C1: over any valid operation sequence from a fresh portfolio,
(1) cash stays non-negative; (2) a sell requesting more than the held
quantity — in particular a sell of a stock with no holding — returns
false and leaves the state unchanged; (3) a sell of exactly the held
quantity succeeds and removes the holding entry entirely; (4) a buy of
a stock with no holding entry creates a fresh holding whose average
cost is exactly the buy price, with no memory of any prior basis. -/
theorem C1_ledger_invariants :
    (∀ (c0 : ℚ) (ops : List POp), 0 ≤ c0 → (∀ op ∈ ops, op.valid) →
      0 ≤ (applyOps (.init c0) ops).cash) ∧
    (∀ (p : SimulatedPortfolio) (code : String) (qty : Int) (pr : ℚ) (d : Nat),
      (∀ h, hfind code p.holdings = some h → h.qty < qty) →
      p.sell code qty pr d = (false, p)) ∧
    (∀ (c0 : ℚ) (ops : List POp) (code : String) (h : Holding) (pr : ℚ) (d : Nat),
      hfind code (applyOps (.init c0) ops).holdings = some h →
      ((applyOps (.init c0) ops).sell code h.qty pr d).1 = true ∧
      hfind code ((applyOps (.init c0) ops).sell code h.qty pr d).2.holdings = none) ∧
    (∀ (p : SimulatedPortfolio) (code name : String) (qty : Int) (pr : ℚ) (d : Nat),
      hfind code p.holdings = none → 0 < qty → (qty : ℚ) * pr ≤ p.cash →
      hfind code (p.buy code name qty pr d).2.holdings =
        some { name := name, qty := qty, avg_price := pr }) := by
  refine ⟨?_, ?_, ?_, ?_⟩
  · intro c0 ops h0 hv
    exact cash_nonneg_applyOps ops _ (by simpa [SimulatedPortfolio.init] using h0) hv
  · intro p code qty pr d hlt
    rcases hh : hfind code p.holdings with _ | h
    · simp [SimulatedPortfolio.sell, hh]
    · have hgt : h.qty < qty := hlt h hh
      simp [SimulatedPortfolio.sell, hh, hgt]
  · intro c0 ops code h pr d hh
    have hk : goodKeys (applyOps (.init c0) ops) := goodKeys_applyOps c0 ops
    constructor
    · unfold SimulatedPortfolio.sell
      simp [hh]
    · unfold SimulatedPortfolio.sell
      simp only [hh, gt_iff_lt, lt_self_iff_false, if_false, sub_self, if_true, ite_true]
      exact hfind_herase_eq_none hk
  · intro p code name qty pr d hnone hpos hcash
    unfold SimulatedPortfolio.buy
    have hcond : ¬((qty : ℚ) * pr > p.cash ∨ qty ≤ 0) := by
      push_neg
      exact ⟨hcash, hpos⟩
    simp only [hcond, if_false, hnone]
    exact hfind_append_singleton _ hnone

/-- Witness for C1: a concrete valid history (one buy of 5 shares at
price 10 from cash 100), a rejected over-sell on a fresh portfolio, a
full exit removing the holding, and a fresh-basis re-entry. -/
theorem C1_ledger_invariants_witness :
    0 ≤ (applyOps (.init 100) [POp.buy "A" "N" 5 10 0]).cash ∧
    (SimulatedPortfolio.init 100).sell "A" 1 10 0 = (false, SimulatedPortfolio.init 100) ∧
    (((applyOps (.init 100) [POp.buy "A" "N" 5 10 0]).sell "A" 5 12 1).1 = true ∧
      hfind "A" ((applyOps (.init 100) [POp.buy "A" "N" 5 10 0]).sell "A" 5 12 1).2.holdings
        = none) ∧
    hfind "B" ((SimulatedPortfolio.init 100).buy "B" "M" 2 3 0).2.holdings =
      some { name := "M", qty := 2, avg_price := 3 } := by
  refine ⟨?_, ?_, ?_, ?_⟩
  · refine C1_ledger_invariants.1 100 [POp.buy "A" "N" 5 10 0] (by norm_num) ?_
    intro op hop
    rcases List.mem_singleton.mp hop with rfl
    show (0 : ℚ) ≤ 10
    norm_num
  · refine C1_ledger_invariants.2.1 (SimulatedPortfolio.init 100) "A" 1 10 0 ?_
    intro h hh
    simp [SimulatedPortfolio.init, hfind] at hh
  · exact C1_ledger_invariants.2.2.1 100 [POp.buy "A" "N" 5 10 0] "A"
      { name := "N", qty := 5, avg_price := 10 } 12 1
      (by norm_num [applyOps, applyOp, SimulatedPortfolio.buy, SimulatedPortfolio.init, hfind])
  · refine C1_ledger_invariants.2.2.2 (SimulatedPortfolio.init 100) "B" "M" 2 3 0 rfl
      (by decide) ?_
    show (2 : ℚ) * 3 ≤ 100
    norm_num

/-- C8: `buy` with `qty ≤ 0` or with `qty * price` exceeding cash
returns false and leaves the whole portfolio state unchanged; in
particular, on a fresh portfolio with 500 cash, buying 60 shares at
price 10 (cost 600) returns false, leaves cash at 500, and creates no
holding. -/
theorem C8_buy_reject_no_mutation :
    (∀ (p : SimulatedPortfolio) (code name : String) (qty : Int) (pr : ℚ) (d : Nat),
      qty ≤ 0 ∨ p.cash < (qty : ℚ) * pr → p.buy code name qty pr d = (false, p)) ∧
    ((SimulatedPortfolio.init 500).buy "A" "N" 60 10 0 = (false, SimulatedPortfolio.init 500) ∧
      ((SimulatedPortfolio.init 500).buy "A" "N" 60 10 0).2.cash = 500 ∧
      hfind "A" ((SimulatedPortfolio.init 500).buy "A" "N" 60 10 0).2.holdings = none) := by
  constructor
  · intro p code name qty pr d hrej
    have hcond : (qty : ℚ) * pr > p.cash ∨ qty ≤ 0 := by
      rcases hrej with h | h
      · exact Or.inr h
      · exact Or.inl h
    simp [SimulatedPortfolio.buy, hcond]
  · refine ⟨?_, ?_, ?_⟩ <;>
      norm_num [SimulatedPortfolio.buy, SimulatedPortfolio.init, hfind]

/-- Witness for C8: the rejection branch applied at the concrete
spec example (qty 60, price 10, cash 500). -/
theorem C8_buy_reject_no_mutation_witness :
    (SimulatedPortfolio.init 500).buy "A" "N" 60 10 0 = (false, SimulatedPortfolio.init 500) :=
  C8_buy_reject_no_mutation.1 (SimulatedPortfolio.init 500) "A" "N" 60 10 0
    (Or.inr (by norm_num [SimulatedPortfolio.init]))

/-! ### TradingStrategy (src/trading/strategy.py) and the shared
account-balance interface shape (src/trading/kis_client.py) -/

/-- `TradeAction` enum. -/
inductive TradeAction
  | BUY
  | SELL
  | HOLD
deriving DecidableEq

/-- The `reason` f-strings of `TradingStrategy.evaluate`, abstracted to
their identifying tags; the formatted numeric suffix is dropped, and the
lower-cased substring tests of `should_execute` ("stop-loss",
"take-profit") depend only on the tag. -/
inductive Reason
  | stopLoss
  | takeProfit
  | negativeSentiment
  | positiveNews
deriving DecidableEq

/-- `TradeDecision` dataclass. -/
structure TradeDecision where
  action : TradeAction
  stock_code : String
  stock_name : String
  quantity : Int
  reason : Reason
  confidence : ℚ
  target_price : Option ℚ
deriving DecidableEq

/-- `StockHolding` dataclass of kis_client.py (the interface shape the
live client and `SimulatedPortfolio.to_account_balance` both produce). -/
structure StockHolding where
  stock_code : String
  stock_name : String
  quantity : Int
  avg_buy_price : ℚ
  current_price : ℚ
  eval_amount : ℚ
  profit_loss : ℚ
  profit_rate : ℚ
deriving DecidableEq

/-- `AccountBalance` dataclass of kis_client.py. -/
structure AccountBalance where
  cash : ℚ
  total_eval_amount : ℚ
  total_profit_loss : ℚ
  total_profit_rate : ℚ
  holdings : List StockHolding
deriving DecidableEq

/-- `TradingSignal` (src/analysis/analyzer.py), restricted to the
fields the strategy reads (keywords/articles dropped). -/
structure TradingSignal where
  stock_code : String
  stock_name : String
  mentions : Int
  sentiment_sum : ℚ
deriving DecidableEq

/-- `TradingSignal.avg_sentiment` property. -/
def TradingSignal.avg_sentiment (s : TradingSignal) : ℚ :=
  if s.mentions = 0 then 0 else s.sentiment_sum / (s.mentions : ℚ)

/-- `TradingSignal.signal_strength` property. -/
def TradingSignal.signal_strength (s : TradingSignal) : ℚ :=
  min ((s.mentions : ℚ) / 10) 1 * 0.5 + ((s.avg_sentiment + 1) / 2) * 0.5

/-- The numeric configuration read in `TradingStrategy.__init__`; the
two `ratio` fields carry a shortened suffix here. -/
structure StrategyConfig where
  max_single_trade_rt : ℚ
  split_count : Int
  stop_loss_rate : ℚ
  take_profit_rate : ℚ
  max_holding_rt : ℚ
  buy_threshold : ℚ
  sell_threshold : ℚ
  min_mentions : Int
deriving DecidableEq

/-- The `strategy_config.get(..., default)` values of `__init__`. -/
def defaultStrategyConfig : StrategyConfig :=
  { max_single_trade_rt := 0.1
    split_count := 3
    stop_loss_rate := -0.05
    take_profit_rate := 0.10
    max_holding_rt := 0.2
    buy_threshold := 0.3
    sell_threshold := -0.2
    min_mentions := 3 }

/-- Python `int(x)` applied to a float: truncation toward zero. -/
def pyInt (q : ℚ) : Int := if q < 0 then ⌈q⌉ else ⌊q⌋

/-- The holding-search loop at the top of `evaluate` (first holding in
the list whose code matches). -/
def findHolding (code : String) : List StockHolding → Option StockHolding
  | [] => none
  | h :: rest => if h.stock_code = code then some h else findHolding code rest

/-- `TradingStrategy._calculate_buy_quantity`; the injected
`_get_price_func` is the `getPrice` argument (modelled total, so the
`except` path around the caller never fires). -/
def calculateBuyQuantity (cfg : StrategyConfig) (getPrice : String → ℚ)
    (stock_code : String) (balance : AccountBalance) : Int :=
  let max_invest := balance.cash * cfg.max_single_trade_rt / (cfg.split_count : ℚ)
  let current_price := getPrice stock_code
  if current_price ≤ 0 then 0
  else max (pyInt (max_invest / current_price)) 0

/-- The BUY half of `evaluate` (reached only when no sell rule fired):
position cap check for an existing holding, then quantity sizing. -/
def evaluateBuy (cfg : StrategyConfig) (getPrice : String → ℚ) (signal : TradingSignal)
    (holding : Option StockHolding) (balance : AccountBalance)
    (avg_sentiment confidence : ℚ) : Option TradeDecision :=
  if avg_sentiment > cfg.buy_threshold ∧ signal.mentions ≥ cfg.min_mentions then
    let mkBuy : Option TradeDecision :=
      let buy_qty := calculateBuyQuantity cfg getPrice signal.stock_code balance
      if buy_qty > 0 then
        some { action := .BUY, stock_code := signal.stock_code
               stock_name := signal.stock_name, quantity := buy_qty
               reason := .positiveNews, confidence := confidence, target_price := none }
      else none
    match holding with
    | some h =>
        let cur_rt := ((h.quantity : ℚ) * h.current_price) / max balance.total_eval_amount 1
        if cur_rt ≥ cfg.max_holding_rt then none
        else mkBuy
    | none => mkBuy
  else none

/-- `TradingStrategy.evaluate`: fixed-priority rule dispatch
(stop-loss, take-profit, negative-sentiment sell, then buy). -/
def TradingStrategy.evaluate (cfg : StrategyConfig) (getPrice : String → ℚ)
    (signal : TradingSignal) (holdings : List StockHolding)
    (balance : AccountBalance) : Option TradeDecision :=
  let holding := findHolding signal.stock_code holdings
  let avg_sentiment := signal.avg_sentiment
  let confidence := min ((signal.mentions : ℚ) / 10) 1
  match holding with
  | some h =>
    if h.profit_rate ≤ cfg.stop_loss_rate then
      some { action := .SELL, stock_code := signal.stock_code
             stock_name := signal.stock_name, quantity := h.quantity
             reason := .stopLoss, confidence := 1, target_price := none }
    else if h.profit_rate ≥ cfg.take_profit_rate then
      some { action := .SELL, stock_code := signal.stock_code
             stock_name := signal.stock_name, quantity := max (h.quantity.fdiv 2) 1
             reason := .takeProfit, confidence := 0.8, target_price := none }
    else if avg_sentiment < cfg.sell_threshold then
      some { action := .SELL, stock_code := signal.stock_code
             stock_name := signal.stock_name
             quantity := max (h.quantity.fdiv cfg.split_count) 1
             reason := .negativeSentiment, confidence := confidence, target_price := none }
    else evaluateBuy cfg getPrice signal (some h) balance avg_sentiment confidence
  | none => evaluateBuy cfg getPrice signal none balance avg_sentiment confidence

/-- `should_execute`: stop-loss / take-profit always execute, otherwise
confidence at least 0.5 is required. -/
def shouldExecute (decision : TradeDecision) : Bool :=
  if decision.reason = .stopLoss then true
  else if decision.reason = .takeProfit then true
  else decide (decision.confidence ≥ 0.5)

/-- `sorted(signals.values(), key=lambda s: s.signal_strength,
reverse=True)`: stable descending sort (Python's `sorted` and
`List.mergeSort` are both stable). -/
def sortSignals (signals : List TradingSignal) : List TradingSignal :=
  signals.mergeSort (fun a b => b.signal_strength ≤ a.signal_strength)

/-- The `for signal in sorted_signals` loop of `evaluate_batch` with
its `decisions` accumulator; the `break` fires when the length check
succeeds after a possible append. -/
def evalBatchGo (cfg : StrategyConfig) (gp : String → ℚ) (holdings : List StockHolding)
    (balance : AccountBalance) (max_decisions : Nat) :
    List TradingSignal → List TradeDecision → List TradeDecision
  | [], decisions => decisions
  | s :: rest, decisions =>
    let decisions' :=
      match TradingStrategy.evaluate cfg gp s holdings balance with
      | some d => decisions ++ [d]
      | none => decisions
    if max_decisions ≤ decisions'.length then decisions'
    else evalBatchGo cfg gp holdings balance max_decisions rest decisions'

/-- `TradingStrategy.evaluate_batch` (the Python `max_decisions`
default is 5); the signals dict is consumed as its value list. -/
def TradingStrategy.evaluate_batch (cfg : StrategyConfig) (gp : String → ℚ)
    (signals : List TradingSignal) (holdings : List StockHolding)
    (balance : AccountBalance) (max_decisions : Nat) : List TradeDecision :=
  evalBatchGo cfg gp holdings balance max_decisions (sortSignals signals) []

/-- Instrumented copy of the `evaluate_batch` loop that also records,
in order, every signal on which `evaluate` was called. -/
def evalBatchGoI (cfg : StrategyConfig) (gp : String → ℚ) (holdings : List StockHolding)
    (balance : AccountBalance) (max_decisions : Nat) :
    List TradingSignal → List TradeDecision → List TradingSignal →
      List TradeDecision × List TradingSignal
  | [], decisions, evs => (decisions, evs)
  | s :: rest, decisions, evs =>
    let decisions' :=
      match TradingStrategy.evaluate cfg gp s holdings balance with
      | some d => decisions ++ [d]
      | none => decisions
    if max_decisions ≤ decisions'.length then (decisions', evs ++ [s])
    else evalBatchGoI cfg gp holdings balance max_decisions rest decisions' (evs ++ [s])

lemma evalBatchGoI_fst (cfg : StrategyConfig) (gp : String → ℚ)
    (holdings : List StockHolding) (balance : AccountBalance) (max_decisions : Nat) :
    ∀ (l : List TradingSignal) (acc : List TradeDecision) (evs0 : List TradingSignal),
      (evalBatchGoI cfg gp holdings balance max_decisions l acc evs0).1 =
        evalBatchGo cfg gp holdings balance max_decisions l acc := by
  intro l
  induction l with
  | nil => intro acc evs0; rfl
  | cons s rest ih =>
    intro acc evs0
    rcases hed : TradingStrategy.evaluate cfg gp s holdings balance with _ | d
    · by_cases hc : max_decisions ≤ acc.length
      · simp [evalBatchGoI, evalBatchGo, hed, hc]
      · simp [evalBatchGoI, evalBatchGo, hed, hc, ih]
    · by_cases hc : max_decisions ≤ acc.length + 1
      · simp [evalBatchGoI, evalBatchGo, hed, hc]
      · simp [evalBatchGoI, evalBatchGo, hed, hc, ih]

lemma evalBatchGoI_spec (cfg : StrategyConfig) (gp : String → ℚ)
    (holdings : List StockHolding) (balance : AccountBalance) (max_decisions : Nat) :
    ∀ (l : List TradingSignal) (acc : List TradeDecision) (evs0 : List TradingSignal),
      acc.length < max_decisions →
      ∃ evt : List TradingSignal,
        (evalBatchGoI cfg gp holdings balance max_decisions l acc evs0).2 = evs0 ++ evt ∧
        evt <+: l ∧
        (evalBatchGoI cfg gp holdings balance max_decisions l acc evs0).1 =
          acc ++ evt.filterMap (fun s => TradingStrategy.evaluate cfg gp s holdings balance) ∧
        (evalBatchGoI cfg gp holdings balance max_decisions l acc evs0).1.length ≤
          max_decisions ∧
        ((evalBatchGoI cfg gp holdings balance max_decisions l acc evs0).1.length <
            max_decisions → evt = l) ∧
        (∀ pre, pre <+: evt → pre ≠ evt →
          (acc ++ pre.filterMap
            (fun s => TradingStrategy.evaluate cfg gp s holdings balance)).length <
              max_decisions) := by
  intro l
  induction l with
  | nil =>
    intro acc evs0 hacc
    refine ⟨[], by simp [evalBatchGoI], List.nil_prefix, by simp [evalBatchGoI], ?_, ?_, ?_⟩
    · simpa [evalBatchGoI] using le_of_lt hacc
    · intro _; rfl
    · intro pre hpre hne
      exact absurd (List.prefix_nil.mp hpre) hne
  | cons s rest ih =>
    intro acc evs0 hacc
    rcases hed : TradingStrategy.evaluate cfg gp s holdings balance with _ | d
    · have hlt : ¬ max_decisions ≤ acc.length := not_le.mpr hacc
      have hstep : evalBatchGoI cfg gp holdings balance max_decisions (s :: rest) acc evs0 =
          evalBatchGoI cfg gp holdings balance max_decisions rest acc (evs0 ++ [s]) := by
        simp [evalBatchGoI, hed, hlt]
      obtain ⟨evt, h2, hpre, h1, hle, hfull, hmin⟩ := ih acc (evs0 ++ [s]) hacc
      refine ⟨s :: evt, ?_, ?_, ?_, ?_, ?_, ?_⟩
      · rw [hstep, h2]
        simp
      · exact List.cons_prefix_cons.mpr ⟨rfl, hpre⟩
      · rw [hstep, h1]
        simp [List.filterMap_cons, hed]
      · rw [hstep]
        exact hle
      · rw [hstep]
        intro hlen
        rw [hfull hlen]
      · intro pre hpre2 hne
        rcases List.prefix_cons_iff.mp hpre2 with rfl | ⟨t, rfl, ht⟩
        · simpa using hacc
        · have htne : t ≠ evt := fun hh => hne (by rw [hh])
          simpa only [List.filterMap_cons, hed] using hmin t ht htne
    · by_cases hc : max_decisions ≤ acc.length + 1
      · have hstep : evalBatchGoI cfg gp holdings balance max_decisions (s :: rest) acc evs0 =
            (acc ++ [d], evs0 ++ [s]) := by
          simp [evalBatchGoI, hed, hc]
        refine ⟨[s], ?_, ?_, ?_, ?_, ?_, ?_⟩
        · rw [hstep]
        · exact List.cons_prefix_cons.mpr ⟨rfl, List.nil_prefix⟩
        · rw [hstep]
          simp [List.filterMap_cons, hed]
        · rw [hstep]
          simp only [List.length_append, List.length_singleton]
          omega
        · rw [hstep]
          simp only [List.length_append, List.length_singleton]
          omega
        · intro pre hpre2 hne
          rcases List.prefix_cons_iff.mp hpre2 with rfl | ⟨t, rfl, ht⟩
          · simpa using hacc
          · exact absurd (by rw [List.prefix_nil.mp ht]) hne
      · have hacc' : (acc ++ [d]).length < max_decisions := by
          simp only [List.length_append, List.length_singleton]
          omega
        have hstep : evalBatchGoI cfg gp holdings balance max_decisions (s :: rest) acc evs0 =
            evalBatchGoI cfg gp holdings balance max_decisions rest (acc ++ [d]) (evs0 ++ [s]) := by
          simp [evalBatchGoI, hed, hc]
        obtain ⟨evt, h2, hpre, h1, hle, hfull, hmin⟩ := ih (acc ++ [d]) (evs0 ++ [s]) hacc'
        refine ⟨s :: evt, ?_, ?_, ?_, ?_, ?_, ?_⟩
        · rw [hstep, h2]
          simp
        · exact List.cons_prefix_cons.mpr ⟨rfl, hpre⟩
        · rw [hstep, h1]
          simp [List.filterMap_cons, hed]
        · rw [hstep]
          exact hle
        · rw [hstep]
          intro hlen
          rw [hfull hlen]
        · intro pre hpre2 hne
          rcases List.prefix_cons_iff.mp hpre2 with rfl | ⟨t, rfl, ht⟩
          · simpa using hacc
          · have htne : t ≠ evt := fun hh => hne (by rw [hh])
            have := hmin t ht htne
            simpa only [List.filterMap_cons, hed, List.append_assoc, List.singleton_append]
              using this

/-- C2: whenever the holdings list carries a holding for the signal's
stock (the first entry with the matching code) whose profit rate is at
or below `stop_loss_rate`, `evaluate` returns a SELL decision for the
full held quantity with confidence 1.0, regardless of the signal's
sentiment or mentions; the stop-loss rule is tested first, so no other
rule can pre-empt it. -/
theorem C2_stop_loss_rule (cfg : StrategyConfig) (getPrice : String → ℚ)
    (signal : TradingSignal) (holdings : List StockHolding) (balance : AccountBalance)
    (h : StockHolding) (hfound : findHolding signal.stock_code holdings = some h)
    (hsl : h.profit_rate ≤ cfg.stop_loss_rate) :
    TradingStrategy.evaluate cfg getPrice signal holdings balance =
      some { action := .SELL, stock_code := signal.stock_code
             stock_name := signal.stock_name, quantity := h.quantity
             reason := .stopLoss, confidence := 1, target_price := none } := by
  simp [TradingStrategy.evaluate, hfound, hsl]

/-- Witness for C2: a concrete holding 10% under water with the default
configuration and a strongly positive signal still yields the full
stop-loss SELL with confidence 1. -/
theorem C2_stop_loss_rule_witness :
    TradingStrategy.evaluate defaultStrategyConfig (fun _ => 100)
      { stock_code := "A", stock_name := "N", mentions := 9, sentiment_sum := 8 }
      [{ stock_code := "A", stock_name := "N", quantity := 10, avg_buy_price := 100
         current_price := 90, eval_amount := 900, profit_loss := -100, profit_rate := -10 }]
      { cash := 1000, total_eval_amount := 1900, total_profit_loss := -100
        total_profit_rate := -5, holdings :=
          [{ stock_code := "A", stock_name := "N", quantity := 10, avg_buy_price := 100
             current_price := 90, eval_amount := 900, profit_loss := -100, profit_rate := -10 }] } =
      some { action := .SELL, stock_code := "A", stock_name := "N", quantity := 10
             reason := .stopLoss, confidence := 1, target_price := none } :=
  C2_stop_loss_rule defaultStrategyConfig (fun _ => 100)
    { stock_code := "A", stock_name := "N", mentions := 9, sentiment_sum := 8 }
    [{ stock_code := "A", stock_name := "N", quantity := 10, avg_buy_price := 100
       current_price := 90, eval_amount := 900, profit_loss := -100, profit_rate := -10 }]
    { cash := 1000, total_eval_amount := 1900, total_profit_loss := -100
      total_profit_rate := -5, holdings :=
        [{ stock_code := "A", stock_name := "N", quantity := 10, avg_buy_price := 100
           current_price := 90, eval_amount := 900, profit_loss := -100, profit_rate := -10 }] }
    { stock_code := "A", stock_name := "N", quantity := 10, avg_buy_price := 100
      current_price := 90, eval_amount := 900, profit_loss := -100, profit_rate := -10 }
    (by simp [findHolding]) (by norm_num [defaultStrategyConfig])

/-- A small concrete account balance for instantiating theorems. -/
def balW : AccountBalance :=
  { cash := 1000, total_eval_amount := 1000, total_profit_loss := 0
    total_profit_rate := 0, holdings := [] }

/-- C7: `evaluate_batch` sorts descending by `signal_strength` and
evaluates exactly a prefix `evt` of the sorted list: the returned
decisions are the in-order non-none evaluations of that prefix, never
more than `max_decisions` of them; the whole sorted list is evaluated
only when the quota is never reached; and before each evaluation in
the prefix the quota was still unmet — signals ranked after the cutoff
are never evaluated, even if higher-ranked signals returned none. -/
theorem C7_evaluate_batch_cutoff (cfg : StrategyConfig) (gp : String → ℚ)
    (signals : List TradingSignal) (holdings : List StockHolding)
    (balance : AccountBalance) (max_decisions : Nat) (hmax : 0 < max_decisions) :
    List.Pairwise (fun a b => b.signal_strength ≤ a.signal_strength) (sortSignals signals) ∧
    ∃ evt : List TradingSignal,
      (evalBatchGoI cfg gp holdings balance max_decisions (sortSignals signals) [] []).2 = evt ∧
      evt <+: sortSignals signals ∧
      TradingStrategy.evaluate_batch cfg gp signals holdings balance max_decisions =
        evt.filterMap (fun s => TradingStrategy.evaluate cfg gp s holdings balance) ∧
      (TradingStrategy.evaluate_batch cfg gp signals holdings balance max_decisions).length ≤
        max_decisions ∧
      ((TradingStrategy.evaluate_batch cfg gp signals holdings balance max_decisions).length <
          max_decisions → evt = sortSignals signals) ∧
      ∀ pre, pre <+: evt → pre ≠ evt →
        (pre.filterMap (fun s => TradingStrategy.evaluate cfg gp s holdings balance)).length <
          max_decisions := by
  constructor
  · have h := @List.sorted_mergeSort TradingSignal
      (fun a b : TradingSignal => decide (b.signal_strength ≤ a.signal_strength))
      (fun a b c hab hbc => by
        simp only [decide_eq_true_eq] at hab hbc ⊢
        exact le_trans hbc hab)
      (fun a b => by
        simpa using le_total b.signal_strength a.signal_strength)
      signals
    exact h.imp (fun hab => of_decide_eq_true hab)
  · obtain ⟨evt, h2, hpre, h1, hle, hfull, hmin⟩ :=
      evalBatchGoI_spec cfg gp holdings balance max_decisions (sortSignals signals) [] []
        (by simpa using hmax)
    have hplain : (evalBatchGoI cfg gp holdings balance max_decisions
        (sortSignals signals) [] []).1 =
        TradingStrategy.evaluate_batch cfg gp signals holdings balance max_decisions :=
      evalBatchGoI_fst cfg gp holdings balance max_decisions (sortSignals signals) [] []
    refine ⟨evt, by simpa using h2, hpre, ?_, ?_, ?_, ?_⟩
    · rw [← hplain, h1]
      simp
    · rw [← hplain]
      exact hle
    · rw [← hplain]
      exact hfull
    · intro pre hp hne
      simpa using hmin pre hp hne

/-- Witness for C7 at a concrete input: two signals of different
strength, no holdings, quota 5. -/
theorem C7_evaluate_batch_cutoff_witness :
    List.Pairwise (fun a b => b.signal_strength ≤ a.signal_strength)
      (sortSignals [{ stock_code := "A", stock_name := "N", mentions := 9, sentiment_sum := 8 },
        { stock_code := "B", stock_name := "M", mentions := 1, sentiment_sum := 0 }]) ∧
    ∃ evt : List TradingSignal,
      (evalBatchGoI defaultStrategyConfig (fun _ => 100) [] balW 5
        (sortSignals [{ stock_code := "A", stock_name := "N", mentions := 9, sentiment_sum := 8 },
          { stock_code := "B", stock_name := "M", mentions := 1, sentiment_sum := 0 }]) [] []).2
          = evt ∧
      evt <+: sortSignals
        [{ stock_code := "A", stock_name := "N", mentions := 9, sentiment_sum := 8 },
          { stock_code := "B", stock_name := "M", mentions := 1, sentiment_sum := 0 }] ∧
      TradingStrategy.evaluate_batch defaultStrategyConfig (fun _ => 100)
        [{ stock_code := "A", stock_name := "N", mentions := 9, sentiment_sum := 8 },
          { stock_code := "B", stock_name := "M", mentions := 1, sentiment_sum := 0 }] [] balW 5 =
        evt.filterMap
          (fun s => TradingStrategy.evaluate defaultStrategyConfig (fun _ => 100) s [] balW) ∧
      (TradingStrategy.evaluate_batch defaultStrategyConfig (fun _ => 100)
        [{ stock_code := "A", stock_name := "N", mentions := 9, sentiment_sum := 8 },
          { stock_code := "B", stock_name := "M", mentions := 1, sentiment_sum := 0 }]
          [] balW 5).length ≤ 5 ∧
      ((TradingStrategy.evaluate_batch defaultStrategyConfig (fun _ => 100)
        [{ stock_code := "A", stock_name := "N", mentions := 9, sentiment_sum := 8 },
          { stock_code := "B", stock_name := "M", mentions := 1, sentiment_sum := 0 }]
          [] balW 5).length < 5 →
        evt = sortSignals
          [{ stock_code := "A", stock_name := "N", mentions := 9, sentiment_sum := 8 },
            { stock_code := "B", stock_name := "M", mentions := 1, sentiment_sum := 0 }]) ∧
      ∀ pre, pre <+: evt → pre ≠ evt →
        (pre.filterMap
          (fun s => TradingStrategy.evaluate defaultStrategyConfig (fun _ => 100) s [] balW)).length
            < 5 :=
  C7_evaluate_batch_cutoff defaultStrategyConfig (fun _ => 100)
    [{ stock_code := "A", stock_name := "N", mentions := 9, sentiment_sum := 8 },
      { stock_code := "B", stock_name := "M", mentions := 1, sentiment_sum := 0 }]
    [] balW 5 (by norm_num)

/-! ### RiskManager (src/trading/risk_manager.py) -/

/-- Risk configuration read in `RiskManager.__init__`. -/
structure RiskConfig where
  daily_loss_limit : ℚ
  max_trades_per_day : Int
  max_single_trade_rt : ℚ
  max_holding_rt : ℚ
deriving DecidableEq

/-- The `strategy_config.get(..., default)` values of
`RiskManager.__init__`. -/
def defaultRiskConfig : RiskConfig :=
  { daily_loss_limit := -0.03
    max_trades_per_day := 10
    max_single_trade_rt := 0.1
    max_holding_rt := 0.2 }

/-- `TradeRecord` of risk_manager.py (the wall-clock timestamp is
outside the embedding and dropped). -/
structure RTradeRecord where
  stock_code : String
  action : String
  quantity : Int
  price : ℚ
  total_amount : ℚ
  realized_pnl : Option ℚ
deriving DecidableEq

/-- `DailyStats` (its `date` field, used only by the `_ensure_today`
wall-clock rollover, is dropped: every statement below is about the
state within one trading day, where `_ensure_today` is a no-op). -/
structure DailyStats where
  trade_count : Int
  buy_count : Int
  sell_count : Int
  total_bought : ℚ
  total_sold : ℚ
  realized_pnl : ℚ
  trades : List RTradeRecord
deriving DecidableEq

/-- The zero-initialized `DailyStats` of `reset_daily`/`__init__`. -/
def DailyStats.fresh : DailyStats :=
  { trade_count := 0, buy_count := 0, sell_count := 0
    total_bought := 0, total_sold := 0, realized_pnl := 0, trades := [] }

/-- Mutable state of a `RiskManager` (configuration aside). -/
structure RiskState where
  daily_stats : DailyStats
  initial_portfolio_value : Option ℚ
deriving DecidableEq

/-- The state of a freshly constructed `RiskManager`. -/
def RiskState.fresh : RiskState :=
  { daily_stats := DailyStats.fresh, initial_portfolio_value := none }

/-- `RiskManager.can_trade`. Python's `if self._initial_portfolio_value:`
is a truthiness test, so the loss-limit check runs only when the value
is set *and* non-zero. The formatted numeric tails of the reason
strings are dropped. -/
def canTrade (cfg : RiskConfig) (st : RiskState) : Bool × String :=
  if st.daily_stats.trade_count ≥ cfg.max_trades_per_day then
    (false, "Daily trade limit reached")
  else
    match st.initial_portfolio_value with
    | some v =>
        if v ≠ 0 then
          if st.daily_stats.realized_pnl / v ≤ cfg.daily_loss_limit then
            (false, "Daily loss limit reached")
          else (true, "OK")
        else (true, "OK")
    | none => (true, "OK")

/-- `TradeAction.value` (the Python enum's string value). -/
def TradeAction.value : TradeAction → String
  | .BUY => "buy"
  | .SELL => "sell"
  | .HOLD => "hold"

/-- `RiskManager.validate_order`. Python truthiness on
`decision.target_price` routes both `None` and `0.0` to the
100000-per-share placeholder estimate. -/
def validateOrder (cfg : RiskConfig) (st : RiskState) (decision : TradeDecision)
    (balance : AccountBalance) : Bool × String :=
  let ct := canTrade cfg st
  if ct.1 = false then (false, ct.2)
  else
    match decision.action with
    | .BUY =>
      let required_amount : ℚ :=
        match decision.target_price with
        | some tp => if tp ≠ 0 then decision.quantity * tp else decision.quantity * 100000
        | none => decision.quantity * 100000
      if required_amount > balance.cash then (false, "Insufficient cash")
      else
        let trade_rt := required_amount / max balance.total_eval_amount 1
        if trade_rt > cfg.max_single_trade_rt then
          (false, "Trade exceeds single trade limit")
        else (true, "OK")
    | .SELL =>
      match findHolding decision.stock_code balance.holdings with
      | none => (false, "No position")
      | some holding =>
        if decision.quantity > holding.quantity then (false, "Insufficient shares")
        else (true, "OK")
    | .HOLD => (true, "OK")

/-- `OrderResult` dataclass of kis_client.py (`executed_at` dropped). -/
structure OrderResult where
  success : Bool
  order_id : Option String
  stock_code : Option String
  order_type : Option String
  quantity : Option Int
  price : Option ℚ
  message : Option String
deriving DecidableEq

/-- `RiskManager.record_trade`: append the record and bump the daily
counters; `price = result.price or 0` and the truthiness guard
`if realized_pnl:` (a `0.0` P&L is skipped, which adds nothing anyway)
are modelled exactly. -/
def recordTrade (st : RiskState) (decision : TradeDecision) (result : OrderResult)
    (realized_pnl : Option ℚ) : RiskState :=
  let price : ℚ :=
    match result.price with
    | some pr => if pr ≠ 0 then pr else 0
    | none => 0
  let total_amount : ℚ := decision.quantity * price
  let record : RTradeRecord :=
    { stock_code := decision.stock_code, action := decision.action.value
      quantity := decision.quantity, price := price, total_amount := total_amount
      realized_pnl := realized_pnl }
  let ds := st.daily_stats
  let ds1 := { ds with trades := ds.trades ++ [record], trade_count := ds.trade_count + 1 }
  let ds2 :=
    if decision.action = .BUY then
      { ds1 with buy_count := ds1.buy_count + 1
                 total_bought := ds1.total_bought + total_amount }
    else
      { ds1 with sell_count := ds1.sell_count + 1
                 total_sold := ds1.total_sold + total_amount
                 realized_pnl :=
                   match realized_pnl with
                   | some pnl => if pnl ≠ 0 then ds1.realized_pnl + pnl else ds1.realized_pnl
                   | none => ds1.realized_pnl }
  { st with daily_stats := ds2 }

/-- C6: `can_trade` returns false exactly when the daily trade count
has reached `max_trades_per_day`, or when the initial portfolio value
is set (to a usable, i.e. non-zero, value — the code guards with
Python truthiness, under which an unset or zero value skips the
check, and the claim's ratio is undefined at zero) and
`realized_pnl / initial_portfolio_value ≤ daily_loss_limit`; a
rejection carries one of the two reason strings, and in every other
case the result is `(true, "OK")`. -/
theorem C6_can_trade (cfg : RiskConfig) (st : RiskState) :
    ((canTrade cfg st).1 = false ↔
      (st.daily_stats.trade_count ≥ cfg.max_trades_per_day ∨
        ∃ v, st.initial_portfolio_value = some v ∧ v ≠ 0 ∧
          st.daily_stats.realized_pnl / v ≤ cfg.daily_loss_limit)) ∧
    ((canTrade cfg st).1 = false →
      (canTrade cfg st).2 = "Daily trade limit reached" ∨
      (canTrade cfg st).2 = "Daily loss limit reached") ∧
    ((canTrade cfg st).1 = true → canTrade cfg st = (true, "OK")) := by
  unfold canTrade
  by_cases hcount : st.daily_stats.trade_count ≥ cfg.max_trades_per_day
  · rw [if_pos hcount]
    exact ⟨iff_of_true rfl (Or.inl hcount), fun _ => Or.inl rfl, fun h => by simp at h⟩
  · rw [if_neg hcount]
    rcases hi : st.initial_portfolio_value with _ | v
    · refine ⟨iff_of_false (by simp) ?_, fun h => by simp at h, fun _ => rfl⟩
      rintro (hc | ⟨w, hw, _, _⟩)
      · exact hcount hc
      · simp at hw
    · dsimp only
      by_cases hv : v ≠ 0
      · by_cases hloss : st.daily_stats.realized_pnl / v ≤ cfg.daily_loss_limit
        · rw [if_pos hv, if_pos hloss]
          exact ⟨iff_of_true rfl (Or.inr ⟨v, rfl, hv, hloss⟩),
            fun _ => Or.inr rfl, fun h => by simp at h⟩
        · rw [if_pos hv, if_neg hloss]
          refine ⟨iff_of_false (by simp) ?_, fun h => by simp at h, fun _ => rfl⟩
          rintro (hc | ⟨w, hw, hwne, hwl⟩)
          · exact hcount hc
          · cases Option.some.inj hw
            exact hloss hwl
      · push_neg at hv
        subst hv
        rw [if_neg (by simp : ¬(0 : ℚ) ≠ 0)]
        refine ⟨iff_of_false (by simp) ?_, fun h => by simp at h, fun _ => rfl⟩
        rintro (hc | ⟨w, hw, hwne, hwl⟩)
        · exact hcount hc
        · cases Option.some.inj hw
          exact hwne rfl

/-- Witness for C6: with the default limits, ten recorded trades block
trading, and a realized loss of 4% of a set initial value blocks
trading; a fresh state may trade. -/
theorem C6_can_trade_witness :
    (canTrade defaultRiskConfig
      { daily_stats := { DailyStats.fresh with trade_count := 10 }
        initial_portfolio_value := none }).1 = false ∧
    (canTrade defaultRiskConfig
      { daily_stats := { DailyStats.fresh with realized_pnl := -400 }
        initial_portfolio_value := some 10000 }).1 = false ∧
    canTrade defaultRiskConfig RiskState.fresh = (true, "OK") := by
  refine ⟨?_, ?_, ?_⟩
  · refine (C6_can_trade defaultRiskConfig _).1.mpr (Or.inl ?_)
    norm_num [DailyStats.fresh, defaultRiskConfig]
  · refine (C6_can_trade defaultRiskConfig _).1.mpr (Or.inr ⟨10000, rfl, by norm_num, ?_⟩)
    norm_num [DailyStats.fresh, defaultRiskConfig]
  · refine (C6_can_trade defaultRiskConfig RiskState.fresh).2.2 ?_
    norm_num [canTrade, RiskState.fresh, DailyStats.fresh, defaultRiskConfig]

/-! ### OrderExecutor (src/trading/order.py) -/

/-- `ExecutionResult` dataclass (the `executed_at` wall-clock stamp is
outside the embedding and dropped). -/
structure ExecutionResult where
  success : Bool
  decision : TradeDecision
  order_result : Option OrderResult
  error_message : Option String
deriving DecidableEq

/-- The KIS broker interface as `execute` consumes it; an `Except`
value models the try/except around each call. -/
structure Broker where
  get_balance : Except String AccountBalance
  buy_market : String → Int → Except String OrderResult
  sell_market : String → Int → Except String OrderResult
  get_holding : String → Option StockHolding
  get_current_price : String → ℚ

/-- One market order submitted to the broker: the observable trace of
broker order calls that `execute` makes. -/
structure OrderCall where
  side : String
  stock_code : String
  quantity : Int
deriving DecidableEq

/-- `OrderExecutor._simulate_execution`: a successful synthesized
result priced at `target_price` with the synthetic "DRY-HHMMSS"
identifier (`now` stands for `datetime.now().strftime("%H%M%S")`). -/
def simulateExecution (now : String) (decision : TradeDecision) : ExecutionResult :=
  { success := true
    decision := decision
    order_result := some
      { success := true
        order_id := some (String.append "DRY-" now)
        stock_code := some decision.stock_code
        order_type := some decision.action.value
        quantity := some decision.quantity
        price := decision.target_price
        message := some "Dry run simulation" }
    error_message := none }

/-- The lazy initialization at the top of `execute`:
`if self.risk._initial_portfolio_value is None: set_initial_portfolio_value(...)`. -/
def initValueIfUnset (risk : RiskState) (balance : AccountBalance) : RiskState :=
  match risk.initial_portfolio_value with
  | none => { risk with initial_portfolio_value := some balance.total_eval_amount }
  | some _ => risk

/-- `OrderExecutor.execute`, state-passed: the execution result, the
risk-manager state after the call and the trace of submitted market
orders. The Python `else` of the action test covers every non-BUY
action, exactly as here. -/
def OrderExecutor.execute (cfg : RiskConfig) (broker : Broker) (dry_run : Bool)
    (now : String) (risk : RiskState) (decision : TradeDecision) :
    ExecutionResult × RiskState × List OrderCall :=
  match broker.get_balance with
  | .error e =>
      ({ success := false, decision := decision, order_result := none
         error_message := some (String.append "Failed to get balance: " e) }, risk, [])
  | .ok balance =>
    let risk1 := initValueIfUnset risk balance
    let v := validateOrder cfg risk1 decision balance
    if v.1 = false then
      ({ success := false, decision := decision, order_result := none
         error_message := some v.2 }, risk1, [])
    else if dry_run then (simulateExecution now decision, risk1, [])
    else if decision.action = .BUY then
      match broker.buy_market decision.stock_code decision.quantity with
      | .ok order_result =>
          ({ success := true, decision := decision, order_result := some order_result
             error_message := none },
            recordTrade risk1 decision order_result none,
            [{ side := "buy", stock_code := decision.stock_code
               quantity := decision.quantity }])
      | .error e =>
          ({ success := false, decision := decision, order_result := none
             error_message := some e }, risk1,
            [{ side := "buy", stock_code := decision.stock_code
               quantity := decision.quantity }])
    else
      let realized_pnl : Option ℚ :=
        match broker.get_holding decision.stock_code with
        | some holding =>
            some ((broker.get_current_price decision.stock_code - holding.avg_buy_price) *
              decision.quantity)
        | none => none
      match broker.sell_market decision.stock_code decision.quantity with
      | .ok order_result =>
          ({ success := true, decision := decision, order_result := some order_result
             error_message := none },
            recordTrade risk1 decision order_result realized_pnl,
            [{ side := "sell", stock_code := decision.stock_code
               quantity := decision.quantity }])
      | .error e =>
          ({ success := false, decision := decision, order_result := none
             error_message := some e }, risk1,
            [{ side := "sell", stock_code := decision.stock_code
               quantity := decision.quantity }])

/-- A concrete holding for exercising the executor paths. -/
def holdW : StockHolding :=
  { stock_code := "A", stock_name := "N", quantity := 10, avg_buy_price := 100
    current_price := 90, eval_amount := 900, profit_loss := -100, profit_rate := -10 }

/-- A concrete account balance whose holdings contain `holdW`. -/
def balX : AccountBalance :=
  { cash := 1000, total_eval_amount := 1900, total_profit_loss := -100
    total_profit_rate := -5, holdings := [holdW] }

/-- A concrete SELL decision that passes risk validation on `balX`. -/
def decisionW : TradeDecision :=
  { action := .SELL, stock_code := "A", stock_name := "N", quantity := 5
    reason := .stopLoss, confidence := 1, target_price := some 90 }

/-- A broker whose balance fetch succeeds with `balX`; its order
methods are never reached in a dry run. -/
def brokerW : Broker :=
  { get_balance := .ok balX
    buy_market := fun _ _ => .error "unreachable"
    sell_market := fun _ _ => .error "unreachable"
    get_holding := fun _ => none
    get_current_price := fun _ => 0 }

/-- Counterexample for C5 as stated: a concrete decision that passes
validation in dry-run mode yields a successful result, yet the risk
manager's daily stats after the call still show zero recorded trades —
the dry-run path returns before `record_trade`, so the trade is *not*
recorded with the RiskManager. -/
theorem C5_dry_run_no_recording_cex :
    (OrderExecutor.execute defaultRiskConfig brokerW true "120000" RiskState.fresh
      decisionW).1.success = true ∧
    (OrderExecutor.execute defaultRiskConfig brokerW true "120000" RiskState.fresh
      decisionW).2.1.daily_stats.trade_count = 0 ∧
    (OrderExecutor.execute defaultRiskConfig brokerW true "120000" RiskState.fresh
      decisionW).2.1.daily_stats.trades = [] := by
  norm_num [OrderExecutor.execute, validateOrder, canTrade, initValueIfUnset,
    simulateExecution, RiskState.fresh, DailyStats.fresh, defaultRiskConfig, decisionW,
    balX, holdW, brokerW, findHolding]

/-- C5 (amended): in dry-run mode, any decision that passes risk
validation after a successful balance fetch makes `execute` return the
synthesized successful result — priced at `target_price`, carrying the
synthetic "DRY-" identifier — with no market order submitted to the
broker; the trade is NOT recorded with the risk manager: the daily
stats are unchanged, and only the initial portfolio value may have
been lazily set from the fetched balance. -/
theorem C5_dry_run_execute (cfg : RiskConfig) (broker : Broker) (now : String)
    (risk : RiskState) (decision : TradeDecision) (balance : AccountBalance)
    (hbal : broker.get_balance = .ok balance)
    (hval : (validateOrder cfg (initValueIfUnset risk balance) decision balance).1 = true) :
    OrderExecutor.execute cfg broker true now risk decision =
      (simulateExecution now decision, initValueIfUnset risk balance, []) ∧
    (simulateExecution now decision).success = true ∧
    (simulateExecution now decision).order_result = some
      { success := true
        order_id := some (String.append "DRY-" now)
        stock_code := some decision.stock_code
        order_type := some decision.action.value
        quantity := some decision.quantity
        price := decision.target_price
        message := some "Dry run simulation" } ∧
    (initValueIfUnset risk balance).daily_stats = risk.daily_stats := by
  refine ⟨?_, rfl, rfl, ?_⟩
  · simp [OrderExecutor.execute, hbal, hval]
  · unfold initValueIfUnset
    rcases risk.initial_portfolio_value with _ | w <;> rfl

/-- Witness for the amended C5 at the concrete dry-run scenario. -/
theorem C5_dry_run_execute_witness :
    OrderExecutor.execute defaultRiskConfig brokerW true "120000" RiskState.fresh decisionW =
      (simulateExecution "120000" decisionW, initValueIfUnset RiskState.fresh balX, []) ∧
    (simulateExecution "120000" decisionW).success = true ∧
    (simulateExecution "120000" decisionW).order_result = some
      { success := true
        order_id := some (String.append "DRY-" "120000")
        stock_code := some decisionW.stock_code
        order_type := some decisionW.action.value
        quantity := some decisionW.quantity
        price := decisionW.target_price
        message := some "Dry run simulation" } ∧
    (initValueIfUnset RiskState.fresh balX).daily_stats = RiskState.fresh.daily_stats :=
  C5_dry_run_execute defaultRiskConfig brokerW "120000" RiskState.fresh decisionW balX rfl
    (by norm_num [validateOrder, canTrade, initValueIfUnset, RiskState.fresh,
      DailyStats.fresh, defaultRiskConfig, decisionW, balX, holdW, findHolding])

/-! ### BacktestReport (src/backtest/report.py) -/

/-- The running-peak loop of `max_drawdown_pct` over the snapshot
`total_value`s. -/
def maxDrawdownGo (peak max_dd : ℚ) : List ℚ → ℚ
  | [] => max_dd
  | value :: rest =>
    let peak' := if value > peak then value else peak
    let dd := (value - peak') / peak' * 100
    maxDrawdownGo peak' (if dd < max_dd then dd else max_dd) rest

/-- `BacktestReport.max_drawdown_pct` as a function of the initial cash
and the list of daily snapshot `total_value`s. -/
def maxDrawdownPct (initial_cash : ℚ) (values : List ℚ) : ℚ :=
  if values = [] then 0 else maxDrawdownGo initial_cash 0 values

lemma ite_min_nonpos (dd md : ℚ) (h : md ≤ 0) : (if dd < md then dd else md) ≤ 0 := by
  by_cases hdd : dd < md
  · rw [if_pos hdd]
    exact le_trans (le_of_lt hdd) h
  · rw [if_neg hdd]
    exact h

lemma maxDrawdownGo_nonpos :
    ∀ (values : List ℚ) (peak max_dd : ℚ), max_dd ≤ 0 →
      maxDrawdownGo peak max_dd values ≤ 0 := by
  intro values
  induction values with
  | nil => intro peak md h; exact h
  | cons v rest ih =>
    intro peak md h
    simp only [maxDrawdownGo]
    exact ih _ _ (ite_min_nonpos _ _ h)

lemma maxDrawdownGo_mono_zero :
    ∀ (values : List ℚ) (peak : ℚ), 0 < peak → List.Chain' (· ≤ ·) values →
      (∀ h ∈ values.head?, peak ≤ h) → maxDrawdownGo peak 0 values = 0 := by
  intro values
  induction values with
  | nil => intro peak _ _ _; rfl
  | cons v rest ih =>
    intro peak hpeak hchain hhead
    have hpv : peak ≤ v := hhead v (by simp)
    have hpeak' : (if v > peak then v else peak) = v := by
      by_cases hgt : v > peak
      · simp [hgt]
      · have : v = peak := le_antisymm (not_lt.mp hgt) hpv
        simp [hgt, this]
    obtain ⟨hrel, hchain'⟩ := List.chain'_cons'.mp hchain
    simp only [maxDrawdownGo, hpeak', sub_self, zero_div, zero_mul, lt_self_iff_false,
      if_false, ite_false]
    exact ih v (lt_of_lt_of_le hpeak hpv) hchain' hrel

/-- Counterexample for C4 as stated: the single-snapshot series `[500]`
is monotonically non-decreasing, yet with initial cash 1000 the
drawdown is −50%, not 0 — the running peak starts at the initial cash,
which the series never reaches. -/
theorem C4_mono_below_initial_cash_cex :
    List.Chain' (· ≤ ·) [(500 : ℚ)] ∧ maxDrawdownPct 1000 [500] = -50 ∧
      maxDrawdownPct 1000 [500] ≠ 0 := by
  refine ⟨by simp, ?_, ?_⟩ <;>
    norm_num [maxDrawdownPct, maxDrawdownGo]

/-- C4 (amended): `max_drawdown_pct` is always ≤ 0; and it equals 0
for every monotonically non-decreasing series of daily snapshot total
values whose first value is at least the (positive) initial cash — the
running peak starts at the initial cash and is updated before each
`(value-peak)/peak*100` computation, whose most negative value is
retained, so a non-decreasing series that starts below the initial
cash already registers a negative drawdown. -/
theorem C4_max_drawdown (initial_cash : ℚ) (values : List ℚ) :
    maxDrawdownPct initial_cash values ≤ 0 ∧
    (0 < initial_cash → List.Chain' (· ≤ ·) values →
      (∀ h ∈ values.head?, initial_cash ≤ h) →
      maxDrawdownPct initial_cash values = 0) := by
  constructor
  · unfold maxDrawdownPct
    split
    · exact le_refl 0
    · exact maxDrawdownGo_nonpos values initial_cash 0 (le_refl 0)
  · intro hpos hchain hhead
    unfold maxDrawdownPct
    split
    · rfl
    · exact maxDrawdownGo_mono_zero values initial_cash hpos hchain hhead

/-- Witness for C4: a concrete dipping series is bounded by 0, and a
concrete non-decreasing series starting at the initial cash has zero
drawdown. -/
theorem C4_max_drawdown_witness :
    maxDrawdownPct 1000 [900, 1200, 800] ≤ 0 ∧
    maxDrawdownPct 1000 [1000, 1100, 1100, 1500] = 0 := by
  constructor
  · exact (C4_max_drawdown 1000 [900, 1200, 800]).1
  · refine (C4_max_drawdown 1000 [1000, 1100, 1100, 1500]).2 (by norm_num) ?_ ?_
    · norm_num [List.chain'_cons, List.chain'_singleton]
    · intro h hh
      simp only [List.head?_cons, Option.mem_def, Option.some.injEq] at hh
      rw [← hh]

/-- The daily-return loop of `sharpe_ratio`: one return per pair of
consecutive snapshot values whose previous value is positive. -/
noncomputable def dailyReturns : List ℝ → List ℝ
  | [] => []
  | [_] => []
  | prev :: curr :: rest =>
      (if prev > 0 then [curr / prev - 1] else []) ++ dailyReturns (curr :: rest)

/-- `statistics.mean`. -/
noncomputable def listMean (l : List ℝ) : ℝ := l.sum / l.length

/-- `statistics.stdev`: the sample standard deviation (n−1
denominator), as used on two or more data points. -/
noncomputable def listStdev (l : List ℝ) : ℝ :=
  Real.sqrt ((l.map (fun x => (x - listMean l) ^ 2)).sum / ((l.length : ℝ) - 1))

/-- `BacktestReport.sharpe_ratio` over the list of daily snapshot
`total_value`s; `252 ** 0.5` is `Real.sqrt 252` and the float test
`std == 0` is real-number equality (classically decidable). -/
noncomputable def sharpe (values : List ℝ) : ℝ :=
  if values.length < 2 then 0
  else
    let daily_returns := dailyReturns values
    if daily_returns.isEmpty then 0
    else
      let avg := listMean daily_returns
      let std := if daily_returns.length > 1 then listStdev daily_returns else 0.001
      if std = 0 then 0
      else (avg * 252 - 0.03) / (std * Real.sqrt 252)

lemma dailyReturns_const_pos {v : ℝ} (hv : 0 < v) :
    ∀ (values : List ℝ), (∀ x ∈ values, x = v) →
      dailyReturns values = List.replicate (values.length - 1) 0 := by
  intro values
  induction values with
  | nil => intro _; rfl
  | cons x tail ih =>
    intro hall
    cases tail with
    | nil => rfl
    | cons y rest =>
      have hx : x = v := hall x (by simp)
      have hy : y = v := hall y (by simp)
      have htail : ∀ z ∈ y :: rest, z = v := fun z hz => hall z (List.mem_cons_of_mem x hz)
      have hxpos : x > 0 := by rw [hx]; exact hv
      simp only [dailyReturns, hxpos, if_true, ite_true]
      rw [ih htail]
      have hdiv : y / x - 1 = 0 := by
        rw [hx, hy, div_self (ne_of_gt hv)]
        ring
      simp [hdiv, List.replicate_succ]

lemma dailyReturns_const_nonpos {v : ℝ} (hv : ¬ 0 < v) :
    ∀ (values : List ℝ), (∀ x ∈ values, x = v) → dailyReturns values = [] := by
  intro values
  induction values with
  | nil => intro _; rfl
  | cons x tail ih =>
    intro hall
    cases tail with
    | nil => rfl
    | cons y rest =>
      have hx : x = v := hall x (by simp)
      have htail : ∀ z ∈ y :: rest, z = v := fun z hz => hall z (List.mem_cons_of_mem x hz)
      have hxneg : ¬ x > 0 := by rw [hx]; exact hv
      simp only [dailyReturns, hxneg, if_false, ite_false]
      simpa using ih htail

lemma listStdev_replicate_zero (k : Nat) : listStdev (List.replicate k (0 : ℝ)) = 0 := by
  have hm : listMean (List.replicate k (0 : ℝ)) = 0 := by
    simp [listMean]
  simp [listStdev, hm]

/-- Counterexample for C3 as stated: two identical positive snapshots
(100, 100) give one daily return, `statistics.stdev` is replaced by the
hard-coded 0.001, and the result is −0.03/(0.001·√252) ≈ −1.89, not 0. -/
theorem C3_two_identical_snapshots_cex :
    ¬ ([(100 : ℝ), 100].length < 2) ∧ (∀ x ∈ [(100 : ℝ), 100], x = 100) ∧
      sharpe [(100 : ℝ), 100] ≠ 0 := by
  refine ⟨by norm_num, ?_, ?_⟩
  · intro x hx
    rcases List.mem_cons.mp hx with h | h
    · exact h
    · simpa using h
  · have h1 : dailyReturns [(100 : ℝ), 100] = [0] := by
      norm_num [dailyReturns]
    have hs : sharpe [(100 : ℝ), 100] = (0 * 252 - 0.03) / (0.001 * Real.sqrt 252) := by
      rw [sharpe]
      norm_num [h1, listMean]
    rw [hs]
    have hden : (0.001 : ℝ) * Real.sqrt 252 > 0 :=
      mul_pos (by norm_num) (Real.sqrt_pos.mpr (by norm_num))
    have : (0 * 252 - 0.03 : ℝ) / (0.001 * Real.sqrt 252) < 0 :=
      div_neg_of_neg_of_pos (by norm_num) hden
    exact ne_of_lt this

/-- C3 (amended): `sharpe_ratio` returns 0 when fewer than two
snapshots exist, and when all snapshot values are identical *and*
either at least three snapshots exist or the common value is not
positive (no computable return, or at least two zero returns of zero
variance); with exactly two identical positive snapshots the single
return's stdev is replaced by the hard-coded 0.001 and the result is
(0·252 − 0.03)/(0.001·√252) ≠ 0; in the remaining cases it is
(mean·252 − 0.03)/(stdev·√252) over the day-over-day returns of
consecutive snapshots with positive predecessor. -/
theorem C3_sharpe (values : List ℝ) (v : ℝ) :
    (values.length < 2 → sharpe values = 0) ∧
    ((∀ x ∈ values, x = v) → 3 ≤ values.length → sharpe values = 0) ∧
    ((∀ x ∈ values, x = v) → ¬ 0 < v → sharpe values = 0) ∧
    (0 < v → sharpe [v, v] = (0 * 252 - 0.03) / (0.001 * Real.sqrt 252)) ∧
    (1 < (dailyReturns values).length → listStdev (dailyReturns values) ≠ 0 →
      ¬ values.length < 2 →
      sharpe values = (listMean (dailyReturns values) * 252 - 0.03) /
        (listStdev (dailyReturns values) * Real.sqrt 252)) := by
  refine ⟨?_, ?_, ?_, ?_, ?_⟩
  · intro hlen
    rw [sharpe, if_pos hlen]
  · intro hall hlen
    by_cases hv : 0 < v
    · have hdr := dailyReturns_const_pos hv values hall
      have hlen2 : ¬ values.length < 2 := by omega
      have hne : ¬ (dailyReturns values).isEmpty = true := by
        rw [hdr]
        have : values.length - 1 ≠ 0 := by omega
        simp [List.isEmpty_iff, this]
      have hgt1 : (dailyReturns values).length > 1 := by
        rw [hdr]
        simp only [List.length_replicate]
        omega
      rw [sharpe]
      rw [if_neg hlen2, if_neg hne, if_pos hgt1]
      rw [hdr, listStdev_replicate_zero]
      simp
    · have hdr := dailyReturns_const_nonpos hv values hall
      have hlen2 : ¬ values.length < 2 := by omega
      rw [sharpe, if_neg hlen2]
      simp [hdr]
  · intro hall hv
    have hdr := dailyReturns_const_nonpos hv values hall
    rw [sharpe]
    by_cases hlen : values.length < 2
    · rw [if_pos hlen]
    · rw [if_neg hlen]
      simp [hdr]
  · intro hv
    have hpair : ∀ x ∈ [v, v], x = v := by
      intro x hx
      rcases List.mem_cons.mp hx with h | h
      · exact h
      · simpa using h
    have h1 : dailyReturns [v, v] = [0] := by
      simpa using dailyReturns_const_pos hv [v, v] hpair
    rw [sharpe]
    norm_num [h1, listMean]
  · intro hgt hstd hlen
    have hne : ¬ (dailyReturns values).isEmpty = true := by
      have : dailyReturns values ≠ [] := by
        intro hh
        rw [hh] at hgt
        simp at hgt
      simp [List.isEmpty_iff, this]
    rw [sharpe, if_neg hlen, if_neg hne, if_pos hgt, if_neg hstd]

/-- Witness for the amended C3 at concrete inputs: a single snapshot,
three identical snapshots, two identical zero snapshots, the
two-identical-positive case, and a genuine two-return series. -/
theorem C3_sharpe_witness :
    sharpe [(7 : ℝ)] = 0 ∧
    sharpe [(100 : ℝ), 100, 100] = 0 ∧
    sharpe [(0 : ℝ), 0] = 0 ∧
    sharpe [(100 : ℝ), 100] = (0 * 252 - 0.03) / (0.001 * Real.sqrt 252) ∧
    (1 < (dailyReturns [(100 : ℝ), 200, 100]).length →
      listStdev (dailyReturns [(100 : ℝ), 200, 100]) ≠ 0 →
      ¬ [(100 : ℝ), 200, 100].length < 2 →
      sharpe [(100 : ℝ), 200, 100] =
        (listMean (dailyReturns [(100 : ℝ), 200, 100]) * 252 - 0.03) /
          (listStdev (dailyReturns [(100 : ℝ), 200, 100]) * Real.sqrt 252)) := by
  refine ⟨?_, ?_, ?_, ?_, ?_⟩
  · exact (C3_sharpe [(7 : ℝ)] 7).1 (by norm_num)
  · refine (C3_sharpe [(100 : ℝ), 100, 100] 100).2.1 ?_ (by norm_num)
    intro x hx
    rcases List.mem_cons.mp hx with h | h
    · exact h
    · rcases List.mem_cons.mp h with h2 | h2
      · exact h2
      · simpa using h2
  · refine (C3_sharpe [(0 : ℝ), 0] 0).2.2.1 ?_ (by norm_num)
    intro x hx
    rcases List.mem_cons.mp hx with h | h
    · exact h
    · simpa using h
  · exact (C3_sharpe [(100 : ℝ), 100] 100).2.2.2.1 (by norm_num)
  · exact (C3_sharpe [(100 : ℝ), 200, 100] 0).2.2.2.2

/-! ### PriceDataProvider (src/backtest/price_data.py) -/

/-- The fallback loop of `get_price_on_date`:
`for i in range(7): d = target_date - timedelta(days=i); ...` — try the
date and walk backwards, returning the first close found. Dates are
integer day numbers; `cache` abstracts the per-date close entries the
file-backed `get_prices` lookup serves for single-day requests, and
`k` counts the remaining loop iterations. -/
def searchBack (cache : Int → Option ℚ) : Int → Nat → Option ℚ
  | _, 0 => none
  | d, k + 1 =>
    match cache d with
    | some c => some c
    | none => searchBack cache (d - 1) k

/-- `PriceDataProvider.get_price_on_date` (`range(7)`: the target date
and at most six preceding days). -/
def getPriceOnDate (cache : Int → Option ℚ) (target_date : Int) : Option ℚ :=
  searchBack cache target_date 7

lemma searchBack_none_iff (cache : Int → Option ℚ) :
    ∀ (k : Nat) (d : Int),
      searchBack cache d k = none ↔ ∀ j : Nat, j < k → cache (d - j) = none := by
  intro k
  induction k with
  | zero =>
    intro d
    simp [searchBack]
  | succ n ih =>
    intro d
    rcases hc : cache d with _ | c
    · simp only [searchBack, hc]
      constructor
      · intro hs j hj
        cases j with
        | zero => simpa using hc
        | succ i =>
          have := (ih (d - 1)).mp hs i (by omega)
          have harith : d - ((i : ℤ) + 1) = d - 1 - i := by ring
          rw [show ((i + 1 : ℕ) : ℤ) = (i : ℤ) + 1 from by push_cast; ring, harith]
          exact this
      · intro hall
        apply (ih (d - 1)).mpr
        intro i hi
        have := hall (i + 1) (by omega)
        rw [show ((i + 1 : ℕ) : ℤ) = (i : ℤ) + 1 from by push_cast; ring] at this
        rw [show d - 1 - (i : ℤ) = d - ((i : ℤ) + 1) from by ring]
        exact this
    · simp only [searchBack, hc]
      refine iff_of_false (by simp) ?_
      intro hall
      have h0 := hall 0 (by omega)
      rw [show d - ((0 : ℕ) : ℤ) = d from by push_cast; ring, hc] at h0
      cases h0

lemma searchBack_some (cache : Int → Option ℚ) :
    ∀ (k : Nat) (d : Int) (c : ℚ), searchBack cache d k = some c →
      ∃ j : Nat, j < k ∧ cache (d - j) = some c ∧
        ∀ i : Nat, i < j → cache (d - i) = none := by
  intro k
  induction k with
  | zero =>
    intro d c hs
    cases hs
  | succ n ih =>
    intro d c hs
    rcases hc : cache d with _ | c'
    · simp only [searchBack, hc] at hs
      obtain ⟨j, hj, hcj, hmin⟩ := ih (d - 1) c hs
      refine ⟨j + 1, by omega, ?_, ?_⟩
      · rw [show d - ((j + 1 : ℕ) : ℤ) = d - 1 - j from by push_cast; ring]
        exact hcj
      · intro i hi
        cases i with
        | zero => simpa using hc
        | succ i' =>
          rw [show d - ((i' + 1 : ℕ) : ℤ) = d - 1 - i' from by push_cast; ring]
          exact hmin i' (by omega)
    · simp only [searchBack, hc, Option.some.injEq] at hs
      refine ⟨0, by omega, ?_, by omega⟩
      rw [show d - ((0 : ℕ) : ℤ) = d from by push_cast; ring, hc, hs]

/-- C10: `get_price_on_date` searches only the window
`[target_date − 6, target_date]`: it returns none exactly when no
cached close exists in that window, and any returned close is the one
of the most recent cached date in the window (every later date in the
window is uncached) — the prior-trading-day fallback never reaches
back more than 6 calendar days. -/
theorem C10_price_on_date_window (cache : Int → Option ℚ) (target_date : Int) :
    (getPriceOnDate cache target_date = none ↔
      ∀ d : Int, target_date - 6 ≤ d → d ≤ target_date → cache d = none) ∧
    (∀ c : ℚ, getPriceOnDate cache target_date = some c →
      ∃ d : Int, target_date - 6 ≤ d ∧ d ≤ target_date ∧ cache d = some c ∧
        ∀ e : Int, d < e → e ≤ target_date → cache e = none) := by
  constructor
  · rw [getPriceOnDate, searchBack_none_iff]
    constructor
    · intro hall d hd1 hd2
      have hj : ((target_date - d).toNat : ℤ) = target_date - d :=
        Int.toNat_of_nonneg (by omega)
      have := hall (target_date - d).toNat (by omega)
      rw [show target_date - ((target_date - d).toNat : ℤ) = d from by omega] at this
      exact this
    · intro hall j hj
      exact hall (target_date - j) (by omega) (by omega)
  · intro c hs
    obtain ⟨j, hj, hcj, hmin⟩ := searchBack_some cache 7 target_date c hs
    refine ⟨target_date - j, by omega, by omega, hcj, ?_⟩
    intro e he1 he2
    have hi : ((target_date - e).toNat : ℤ) = target_date - e :=
      Int.toNat_of_nonneg (by omega)
    have := hmin (target_date - e).toNat (by omega)
    rw [show target_date - ((target_date - e).toNat : ℤ) = e from by omega] at this
    exact this

/-- Witness for C10: a cache holding only day 3, queried at day 7
(window 1..7), yields day 3's close with all later window days
uncached; a cache holding only day 0, queried at day 7, yields none. -/
theorem C10_price_on_date_window_witness :
    (∃ d : Int, (7 : Int) - 6 ≤ d ∧ d ≤ 7 ∧
      (fun x : Int => if x = 3 then some (55 : ℚ) else none) d = some 55 ∧
      ∀ e : Int, d < e → e ≤ 7 →
        (fun x : Int => if x = 3 then some (55 : ℚ) else none) e = none) ∧
    getPriceOnDate (fun x : Int => if x = 0 then some (77 : ℚ) else none) 7 = none := by
  constructor
  · refine (C10_price_on_date_window
      (fun x : Int => if x = 3 then some (55 : ℚ) else none) 7).2 55 ?_
    norm_num [getPriceOnDate, searchBack]
  · refine (C10_price_on_date_window
      (fun x : Int => if x = 0 then some (77 : ℚ) else none) 7).1.mpr ?_
    intro d hd1 hd2
    have : d ≠ 0 := by omega
    simp [this]

/-! ### BacktestEngine (src/backtest/engine.py)

Dates are integer day numbers with day 0 a Monday, so
`weekday = d % 7` agrees with Python's `date.weekday()`
(Saturday = 5, Sunday = 6). -/

/-- The weekend-rolling loop of `run`:
`while d.weekday() >= 5: d += timedelta(days=1)`. -/
def rollForward (d : Nat) : Nat :=
  if d % 7 ≥ 5 then rollForward (d + 1) else d
termination_by (if d % 7 ≥ 5 then 7 - d % 7 else 0)
decreasing_by
  simp_wf
  have h : d % 7 = 5 ∨ d % 7 = 6 := by omega
  rcases h with h | h
  · have h1 : (d + 1) % 7 = 6 := by omega
    simp [h, h1]
  · have h1 : (d + 1) % 7 = 0 := by omega
    simp [h, h1]

/-- An archived article, reduced to its publish date (the payload is
only ever consumed by the opaque analysis collaborator). -/
structure Article where
  published : Nat
deriving DecidableEq

/-- The by-day grouping of `run`: an article lands in the bucket of its
weekend-rolled publish date (bucket order follows input order, as the
Python dict preserves insertion order per key). -/
def dayArticles (articles : List Article) (d : Nat) : List Article :=
  articles.filter (fun a => rollForward a.published = d)

/-- `SimulatedPortfolio.to_account_balance`: the balance view built for
the strategy, falling back to the average buy price when the lookup
returns `None` (`if current_price is None`). -/
def SimulatedPortfolio.to_account_balance (p : SimulatedPortfolio)
    (price_getter : String → Option ℚ) : AccountBalance :=
  let r := p.holdings.foldl
    (fun (acc : List StockHolding × ℚ × ℚ) (e : String × Holding) =>
      let current_price := (price_getter e.1).getD e.2.avg_price
      let eval_amount := (e.2.qty : ℚ) * current_price
      let pnl := (current_price - e.2.avg_price) * e.2.qty
      let pnl_rate :=
        if e.2.avg_price > 0 then ((current_price / e.2.avg_price) - 1) * 100 else 0
      (acc.1 ++ [{ stock_code := e.1, stock_name := e.2.name, quantity := e.2.qty
                   avg_buy_price := e.2.avg_price, current_price := current_price
                   eval_amount := eval_amount, profit_loss := pnl
                   profit_rate := pnl_rate }],
        acc.2.1 + eval_amount, acc.2.2 + pnl))
    ([], 0, 0)
  { cash := p.cash
    total_eval_amount := p.cash + r.2.1
    total_profit_loss := r.2.2
    total_profit_rate := ((p.cash + r.2.1) / p.initial_cash - 1) * 100
    holdings := r.1 }

/-- `SimulatedPortfolio.record_daily_value` (Python's `if price:` is a
truthiness test, so a `0.0` price contributes nothing, like `None`). -/
def SimulatedPortfolio.record_daily_value (p : SimulatedPortfolio) (current_date : Nat)
    (price_getter : String → Nat → Option ℚ) : SimulatedPortfolio :=
  let stock_value := p.holdings.foldl
    (fun acc e =>
      match price_getter e.1 current_date with
      | some pr => if pr ≠ 0 then acc + (e.2.qty : ℚ) * pr else acc
      | none => acc)
    0
  let total_value := p.cash + stock_value
  { p with daily_values := p.daily_values ++
      [{ sdate := current_date, total_value := total_value, cash := p.cash
         stock_value := stock_value
         return_pct := (total_value / p.initial_cash - 1) * 100 }] }

/-- The external collaborators and configuration `run` composes: the
opaque analysis pipeline (`analyze_batch` + `aggregate_signals`, whose
two empty-result early returns collapse into one empty-signals check),
the per-day close lookup, and the strategy configuration. -/
structure EngineCtx where
  analyze : List Article → List TradingSignal
  price : String → Nat → Option ℚ
  cfg : StrategyConfig

/-- The per-decision execution step of `_process_day`: skip when the
day's close is missing or non-positive, else apply the portfolio
`buy`/`sell` dated at the simulated day. -/
def execDecision (ctx : EngineCtx) (sim_date : Nat) (port : SimulatedPortfolio)
    (decision : TradeDecision) : SimulatedPortfolio :=
  match ctx.price decision.stock_code sim_date with
  | none => port
  | some price =>
    if price ≤ 0 then port
    else
      match decision.action with
      | .BUY => (port.buy decision.stock_code decision.stock_name decision.quantity
          price sim_date).2
      | .SELL => (port.sell decision.stock_code decision.quantity price sim_date).2
      | .HOLD => port

/-- `BacktestEngine._process_day`: analyze, build the balance view from
that day's prices, evaluate the batch (quota 5, the default), filter by
`should_execute`, and execute each surviving decision at that day's
close. The strategy's injected price getter is the engine's
`_get_price_for_strategy` bound to the simulated day (`price or 0.0`). -/
def processDay (ctx : EngineCtx) (p : SimulatedPortfolio) (sim_date : Nat)
    (articles : List Article) : SimulatedPortfolio :=
  let signals := ctx.analyze articles
  if signals.isEmpty then p
  else
    let balance := p.to_account_balance (fun code => ctx.price code sim_date)
    let decisions := TradingStrategy.evaluate_batch ctx.cfg
      (fun code => (ctx.price code sim_date).getD 0) signals balance.holdings balance 5
    let executable := decisions.filter (fun d => shouldExecute d)
    executable.foldl (execDecision ctx sim_date) p

/-- The day loop of `run`: from `current` to `effective_end`
inclusive, skipping weekend days entirely (`continue` precedes both
trading and the daily snapshot), processing days with carried-in
articles, and recording the daily valuation on every processed
weekday. -/
def runLoop (ctx : EngineCtx) (articles : List Article) (p : SimulatedPortfolio)
    (current effective_end : Nat) : SimulatedPortfolio :=
  if current ≤ effective_end then
    if current % 7 ≥ 5 then runLoop ctx articles p (current + 1) effective_end
    else
      runLoop ctx articles
        ((if (dayArticles articles current).isEmpty then p
          else processDay ctx p current (dayArticles articles current)).record_daily_value
            current ctx.price)
        (current + 1) effective_end
  else p
termination_by effective_end + 1 - current
decreasing_by
  · omega
  · omega

/-- `BacktestEngine.run` on a fresh portfolio: empty archive returns
the untouched portfolio; otherwise the end date is extended by the
same weekend-rolling rule and every calendar day is visited. -/
def BacktestEngine.run (ctx : EngineCtx) (articles : List Article) (initial_cash : ℚ)
    (start_date end_date : Nat) : SimulatedPortfolio :=
  if articles.isEmpty then SimulatedPortfolio.init initial_cash
  else runLoop ctx articles (SimulatedPortfolio.init initial_cash) start_date
    (rollForward end_date)

lemma buy_trade_dates (p : SimulatedPortfolio) (code name : String) (qty : Int)
    (pr : ℚ) (d : Nat) :
    ∀ t ∈ (p.buy code name qty pr d).2.trade_history,
      t ∈ p.trade_history ∨ t.tdate = d := by
  intro t ht
  unfold SimulatedPortfolio.buy at ht
  by_cases hcond : (qty : ℚ) * pr > p.cash ∨ qty ≤ 0
  · rw [if_pos hcond] at ht
    exact Or.inl ht
  · rw [if_neg hcond] at ht
    simp only [List.mem_append, List.mem_singleton] at ht
    rcases ht with h | h
    · exact Or.inl h
    · right
      rw [h]

lemma sell_trade_dates (p : SimulatedPortfolio) (code : String) (qty : Int)
    (pr : ℚ) (d : Nat) :
    ∀ t ∈ (p.sell code qty pr d).2.trade_history,
      t ∈ p.trade_history ∨ t.tdate = d := by
  intro t ht
  rcases hh : hfind code p.holdings with _ | h
  · simp only [SimulatedPortfolio.sell, hh] at ht
    exact Or.inl ht
  · simp only [SimulatedPortfolio.sell, hh] at ht
    by_cases hq : qty > h.qty
    · rw [if_pos hq] at ht
      exact Or.inl ht
    · rw [if_neg hq] at ht
      simp only [List.mem_append, List.mem_singleton] at ht
      rcases ht with h2 | h2
      · exact Or.inl h2
      · right
        rw [h2]

lemma execDecision_trades (ctx : EngineCtx) (d : Nat) (p : SimulatedPortfolio)
    (dec : TradeDecision) :
    ∀ t ∈ (execDecision ctx d p dec).trade_history,
      t ∈ p.trade_history ∨ t.tdate = d := by
  intro t ht
  unfold execDecision at ht
  rcases hp : ctx.price dec.stock_code d with _ | price
  · simp only [hp] at ht
    exact Or.inl ht
  · simp only [hp] at ht
    by_cases hle : price ≤ 0
    · rw [if_pos hle] at ht
      exact Or.inl ht
    · rw [if_neg hle] at ht
      rcases hact : dec.action with _ | _ | _
      · simp only [hact] at ht
        exact buy_trade_dates p dec.stock_code dec.stock_name dec.quantity price d t ht
      · simp only [hact] at ht
        exact sell_trade_dates p dec.stock_code dec.quantity price d t ht
      · simp only [hact] at ht
        exact Or.inl ht

lemma foldl_execDecision_trades (ctx : EngineCtx) (d : Nat) :
    ∀ (ds : List TradeDecision) (p : SimulatedPortfolio),
      ∀ t ∈ (ds.foldl (execDecision ctx d) p).trade_history,
        t ∈ p.trade_history ∨ t.tdate = d := by
  intro ds
  induction ds with
  | nil => intro p t ht; exact Or.inl ht
  | cons dec rest ih =>
    intro p t ht
    simp only [List.foldl_cons] at ht
    rcases ih (execDecision ctx d p dec) t ht with h | h
    · exact execDecision_trades ctx d p dec t h
    · exact Or.inr h

lemma processDay_trades (ctx : EngineCtx) (p : SimulatedPortfolio) (sim_date : Nat)
    (articles : List Article) :
    ∀ t ∈ (processDay ctx p sim_date articles).trade_history,
      t ∈ p.trade_history ∨ t.tdate = sim_date := by
  intro t ht
  simp only [processDay] at ht
  split at ht
  · exact Or.inl ht
  · exact foldl_execDecision_trades ctx sim_date _ p t ht

lemma record_daily_value_trades (p : SimulatedPortfolio) (cd : Nat)
    (pg : String → Nat → Option ℚ) :
    (p.record_daily_value cd pg).trade_history = p.trade_history := rfl

lemma runLoop_trades (ctx : EngineCtx) (articles : List Article) :
    ∀ (fuel current effective_end : Nat) (p : SimulatedPortfolio),
      effective_end + 1 - current ≤ fuel →
      (∀ t ∈ p.trade_history, t.tdate % 7 < 5) →
      ∀ t ∈ (runLoop ctx articles p current effective_end).trade_history,
        t.tdate % 7 < 5 := by
  intro fuel
  induction fuel with
  | zero =>
    intro current eff p hfuel hp t ht
    have hgt : ¬ current ≤ eff := by omega
    rw [runLoop, if_neg hgt] at ht
    exact hp t ht
  | succ n ih =>
    intro current eff p hfuel hp t ht
    by_cases hle : current ≤ eff
    · rw [runLoop, if_pos hle] at ht
      by_cases hwk : current % 7 ≥ 5
      · rw [if_pos hwk] at ht
        exact ih (current + 1) eff p (by omega) hp t ht
      · rw [if_neg hwk] at ht
        refine ih (current + 1) eff _ (by omega) ?_ t ht
        intro u hu
        rw [record_daily_value_trades] at hu
        by_cases hart : (dayArticles articles current).isEmpty
        · rw [if_pos hart] at hu
          exact hp u hu
        · rw [if_neg hart] at hu
          rcases processDay_trades ctx p current (dayArticles articles current) u hu with h | h
          · exact hp u h
          · rw [h]
            omega
    · rw [runLoop, if_neg hle] at ht
      exact hp t ht

/-- C9: (1) the grouping rule of `run` sends every weekend publish
date to the following Monday — for weekday ≥ 5, `rollForward d` is
`d + (7 − d % 7)`, the next day of weekday 0 — and every article is
bucketed at its weekend-rolled date; (2) the day loop skips weekend
days entirely, so no buy or sell in the replayed history ever carries
a Saturday or Sunday trade date, whatever articles exist. -/
theorem C9_weekend_rolling (ctx : EngineCtx) (articles : List Article)
    (initial_cash : ℚ) (start_date end_date : Nat) :
    (∀ d : Nat, 5 ≤ d % 7 →
      rollForward d = d + (7 - d % 7) ∧ rollForward d % 7 = 0) ∧
    (∀ a ∈ articles, a ∈ dayArticles articles (rollForward a.published)) ∧
    (∀ t ∈ (BacktestEngine.run ctx articles initial_cash start_date
        end_date).trade_history, t.tdate % 7 < 5) := by
  refine ⟨?_, ?_, ?_⟩
  · intro d hd
    have h57 : d % 7 = 5 ∨ d % 7 = 6 := by omega
    rcases h57 with h | h
    · rw [rollForward, if_pos (by omega), rollForward, if_pos (by omega),
        rollForward, if_neg (by omega)]
      constructor <;> omega
    · rw [rollForward, if_pos (by omega), rollForward, if_neg (by omega)]
      constructor <;> omega
  · intro a ha
    simp [dayArticles, ha]
  · intro t ht
    unfold BacktestEngine.run at ht
    split at ht
    · simp [SimulatedPortfolio.init] at ht
    · exact runLoop_trades ctx articles (rollForward end_date + 1 - start_date)
        start_date (rollForward end_date) (SimulatedPortfolio.init initial_cash)
        (le_refl _) (by intro u hu; simp [SimulatedPortfolio.init] at hu) t ht

/-- A concrete engine context (opaque analyzer yielding no signals). -/
def ctxW : EngineCtx :=
  { analyze := fun _ => []
    price := fun _ _ => none
    cfg := defaultStrategyConfig }

/-- Witness for C9: day 5 (a Saturday) rolls to day 7 (the following
Monday), a Saturday article lands in Monday's bucket, and a concrete
run over a week containing that article records no weekend-dated
trade. -/
theorem C9_weekend_rolling_witness :
    (rollForward 5 = 7 ∧ rollForward 5 % 7 = 0) ∧
    ({ published := 5 } : Article) ∈
      dayArticles [{ published := 5 }] (rollForward (5 : Nat)) ∧
    (∀ t ∈ (BacktestEngine.run ctxW [{ published := 5 }] 1000 0 5).trade_history,
      t.tdate % 7 < 5) := by
  refine ⟨?_, ?_, ?_⟩
  · have h := (C9_weekend_rolling ctxW [] 1000 0 5).1 5 (by norm_num)
    exact ⟨by rw [h.1], h.2⟩
  · exact (C9_weekend_rolling ctxW [{ published := 5 }] 1000 0 5).2.1
      { published := 5 } (by simp)
  · exact (C9_weekend_rolling ctxW [{ published := 5 }] 1000 0 5).2.2

end Victor
